import Mathlib

/-!
Verification of the git commit/push Ansible module (`git-commit.py`).

The Python source is shallowly embedded below.  Python strings are Lean
`String`s manipulated through character-list helpers that mirror the exact
semantics of the Python operations used by the module (`str.split`,
`re.split(r"\s+", ...)`, `str.rstrip`, `str.replace`, `os.path.join`,
substring membership).  Fallible Python code is embedded into `Except`;
uncaught Python exceptions (`KeyError`, `AttributeError`, `ValueError`)
are explicit error values.  The filesystem, the process environment and
the external `git` executable are oracles supplied as explicit structures.
-/

/-- Whitespace characters recognised by Python's `str.rstrip()` and by the
`\s` class of `re.split` for the ASCII inputs handled here. -/
def isPyWs (c : Char) : Bool :=
  c = ' ' || c = '\t' || c = '\n' || c = '\r' || c = '\x0b' || c = '\x0c'

/-- Split a character list at every character satisfying `p`, keeping empty
pieces, exactly like repeated single-character `str.split`.  The result is
always non-empty (splitting the empty string yields one empty piece). -/
def splitByPred (p : Char → Bool) : List Char → List String
  | [] => [""]
  | c :: rest =>
    let r := splitByPred p rest
    if p c then "" :: r
    else (String.mk (c :: (r.headD "").data)) :: r.tail

/-- Python `s.split("\n")`: split at each newline, keeping empty pieces. -/
def pySplitNl (s : String) : List String :=
  splitByPred (fun c => c = '\n') s.data

/-- Drop the empty pieces that sit strictly between two separators while
keeping the final piece even when it is empty.  Together with `splitByPred`
this reconstructs `re.split(r"\s+", s)`, which collapses whitespace runs but
keeps a leading and a trailing empty piece. -/
def keepLastFilter : List String → List String
  | [] => []
  | [x] => [x]
  | x :: rest => if x = "" then keepLastFilter rest else x :: keepLastFilter rest

/-- Python `re.split(r"\s+", s)`: split on maximal whitespace runs; a leading
or trailing run contributes an empty piece, interior runs do not. -/
def reSplitWs (s : String) : List String :=
  match splitByPred isPyWs s.data with
  | [] => []
  | first :: rest => first :: keepLastFilter rest

/-- Test whether `pre` is a prefix of `l`, character by character. -/
def isPrefixChars : List Char → List Char → Bool
  | [], _ => true
  | _ :: _, [] => false
  | a :: as, b :: bs => a = b && isPrefixChars as bs

/-- Locate the first occurrence of `sep` in a character list, returning the
text before it and the text after it.  `none` when `sep` does not occur. -/
def splitOnceChars (sep : List Char) : List Char → Option (List Char × List Char)
  | [] => none
  | c :: rest =>
    if isPrefixChars sep (c :: rest) then some ([], List.drop sep.length (c :: rest))
    else
      match splitOnceChars sep rest with
      | some (pre, post) => some (c :: pre, post)
      | none => none

/-- Python `s.split(sep, 1)` for a non-empty separator: at most one split, at
the first occurrence. -/
def pySplit1 (s sep : String) : List String :=
  match splitOnceChars sep.data s.data with
  | some (a, b) => [String.mk a, String.mk b]
  | none => [s]

/-- Python `s.split(sep)[0]` for a non-empty separator: the text before the
first occurrence of `sep`, or all of `s` when `sep` does not occur. -/
def beforeFirst (s sep : String) : String :=
  match splitOnceChars sep.data s.data with
  | some (a, _) => String.mk a
  | none => s

/-- Python `sub in s` for a non-empty `sub`. -/
def strContains (s sub : String) : Bool :=
  (splitOnceChars sub.data s.data).isSome

/-- Python `s.count(sub) == 1` for a non-empty `sub` (non-overlapping count):
`sub` occurs, and does not occur again after its first occurrence. -/
def occursExactlyOnce (s sub : String) : Bool :=
  match splitOnceChars sub.data s.data with
  | some (_, post) => !(splitOnceChars sub.data post).isSome
  | none => false

/-- Python `s.rstrip()`. -/
def pyRstrip (s : String) : String :=
  String.mk ((s.data.reverse.dropWhile isPyWs).reverse)

/-- Python `os.path.isabs` on POSIX: the path starts with a slash. -/
def pyIsAbs (s : String) : Bool :=
  match s.data with
  | '/' :: _ => true
  | _ => false

/-- Whether a path ends with a slash (used by `pathJoin`). -/
def endsWithSlash (s : String) : Bool :=
  match s.data.reverse with
  | '/' :: _ => true
  | _ => false

/-- Python `os.path.join(a, b)` on POSIX for the shapes used by the module:
an absolute second component replaces the first, otherwise the components
are joined with exactly one slash between them. -/
def pathJoin (a b : String) : String :=
  if pyIsAbs b then b
  else if a = "" then b
  else if endsWithSlash a then a ++ b
  else a ++ "/" ++ b

/-- Python `" ".join(l)`. -/
def joinSp : List String → String
  | [] => ""
  | [x] => x
  | x :: rest => x ++ " " ++ joinSp rest

/-- Truthiness of an optional string, as Python evaluates `None` and `str`
values in a boolean context. -/
def optTruthy : Option String → Bool
  | none => false
  | some s => !s.data.isEmpty

deriving instance DecidableEq for Except

/-- Uncaught Python exception kinds raised by the module. -/
inductive PyErr
  | attributeError
  | valueError
  | keyError (k : String)
deriving DecidableEq

/-- Classification of staged paths built by `_get_diff_index`
(`changes = {added: [], modified: [], deleted: []}`). -/
structure Changes where
  added : List String
  modified : List String
  deleted : List String
deriving DecidableEq

/-- One iteration of the classification loop of `_get_diff_index`
(src lines 344-354): split the line on whitespace runs, unpack into exactly
a status letter and a filename (a `ValueError` otherwise, as Python raises
on the destructuring assignment), then append to the bucket selected by the
letter; letters other than `A`, `D`, `M` fall through to `continue`. -/
def classifyStep (c : Changes) (line : String) : Except PyErr Changes :=
  match reSplitWs line with
  | [stageAction, filename] =>
    if stageAction = "A" then .ok { c with added := c.added ++ [filename] }
    else if stageAction = "D" then .ok { c with deleted := c.deleted ++ [filename] }
    else if stageAction = "M" then .ok { c with modified := c.modified ++ [filename] }
    else .ok c
  | _ => .error .valueError

/-- The `for staged_file in staged_files` loop of `_get_diff_index`. -/
def classifyLoop : Changes → List String → Except PyErr Changes
  | c, [] => .ok c
  | c, line :: rest =>
    match classifyStep c line with
    | .ok c2 => classifyLoop c2 rest
    | .error e => .error e

/-- Specification helper: the path carried by a line whose first
whitespace-separated token is `letter`, when the line has exactly two
tokens. -/
def tokOf (letter : String) (line : String) : Option String :=
  match reSplitWs line with
  | [a, f] => if a = letter then some f else none
  | _ => none

/-- Specification helper: the second whitespace-separated token of a
two-token line. -/
def tokSnd (line : String) : Option String :=
  match reSplitWs line with
  | [_, f] => some f
  | _ => none

/-- Python values threaded between pipeline steps as `prev_results`:
every completed `run_command` step yields the tuple `(rc, out, err)`. -/
inductive PyObj
  | pint (n : Int)
  | pstr (s : String)
  | ptuple (len : Nat)
deriving DecidableEq

/-- Python attribute dispatch for `.split(sep)`: defined on `str`, while a
`tuple` (as produced by the slice `args[:-1]`) has no such attribute, so the
call raises `AttributeError`. -/
def pySplitMethod (v : PyObj) (sep : String) : Except PyErr (List String) :=
  match v, sep with
  | .pstr s, "\n" => .ok (pySplitNl s)
  | .pstr s, _ => .ok [s]
  | _, _ => .error .attributeError

/-- Ways a pipeline step terminates the whole run from inside the loop body:
`module.exit_json` (success payload) or an uncaught Python exception. -/
inductive StepExit
  | exitJson (changed : Bool) (files : Changes)
  | pyErr (e : PyErr)
deriving DecidableEq

/-- The `_get_diff_index` step (src lines 330-361).  `args` is the
`prev_results` tuple of the previous step.  The source computes
`[*args[:-1].split('\n')]`: `args[:-1]` is a tuple slice — a tuple — and
tuples have no `split` method, so this raises `AttributeError`.  The rest of
the body (the emptiness test, the classification loop, the early
`module.exit_json` for no staged changes, and the `return 0, '', ''`) is
embedded after that call exactly as written. -/
def getDiffIndexStep (args : List PyObj) : Except StepExit (Int × String × String) := do
  let stagedFiles ← (pySplitMethod (PyObj.ptuple args.dropLast.length) "\n").mapError StepExit.pyErr
  if stagedFiles.length ≠ 0 then
    match classifyLoop ⟨[], [], []⟩ stagedFiles with
    | .ok _changes => pure (0, "", "")
    | .error e => throw (.pyErr e)
  else
    throw (.exitJson false ⟨[], [], []⟩)

/-- The host-key acceptance option appended to `ssh_opts`. -/
def hostkeyFlag : String := "-o StrictHostKeyChecking=no"

/-- The body guarded by `if module.params['accept_hostkey']` (src lines
270-280).  Returns the effective `ssh_opts` together with whether
`module.run_command_environ_update` was set to the C locale — which the
source does only in the `ssh_opts is None` branch. -/
def hostkeyUpdate (acceptHostkey : Bool) (sshOpts : Option String) :
    Option String × Bool :=
  if acceptHostkey then
    match sshOpts with
    | some s =>
      if !strContains s hostkeyFlag then (some (s ++ " " ++ hostkeyFlag), false)
      else (some s, false)
    | none => (some hostkeyFlag, true)
  else (sshOpts, false)

/-- Process environment, a partial map from variable names to values. -/
def EnvMap : Type := String → Option String

/-- Set an environment variable. -/
def envSet (e : EnvMap) (k v : String) : EnvMap :=
  fun k2 => if k2 = k then some v else e k2

/-- Delete an environment variable. -/
def envDel (e : EnvMap) (k : String) : EnvMap :=
  fun k2 => if k2 = k then none else e k2

/-- The `set_git_ssh` function (src lines 166-181): delete-then-set
`GIT_SSH` to the wrapper path, and conditionally re-set `GIT_KEY` and
`GIT_SSH_OPTS` after clearing any truthy previous value. -/
def set_git_ssh (e : EnvMap) (sshWrapper : String) (keyFile sshOpts : Option String) :
    EnvMap :=
  let e1 := if optTruthy (e "GIT_SSH") then envDel e "GIT_SSH" else e
  let e2 := envSet e1 "GIT_SSH" sshWrapper
  let e3 := if optTruthy (e2 "GIT_KEY") then envDel e2 "GIT_KEY" else e2
  let e4 := if optTruthy keyFile then envSet e3 "GIT_KEY" (keyFile.getD "") else e3
  let e5 := if optTruthy (e4 "GIT_SSH_OPTS") then envDel e4 "GIT_SSH_OPTS" else e4
  let e6 := if optTruthy sshOpts then envSet e5 "GIT_SSH_OPTS" (sshOpts.getD "") else e5
  e6

/-- Filesystem oracle for the repository locator. -/
structure FS where
  isFile : String → Bool
  isDir : String → Bool
  content : String → String

/-- The `get_repo_path` function (src lines 184-202).  When `<path>/.git` is
a regular file its right-stripped content is split once on `"gitdir: "`;
a non-empty prefix raises `ValueError`, as does content without the marker
(the two-name destructuring fails).  A relative target is joined to
`repo_path.split('.git')[0]` — the text before the FIRST occurrence of
`".git"` in `<path>/.git` — and the result must be an existing directory. -/
def get_repo_path (fs : FS) (localPath : String) : Except String String :=
  let repoPath := pathJoin localPath ".git"
  if fs.isFile repoPath then
    match pySplit1 (pyRstrip (fs.content repoPath)) "gitdir: " with
    | [refPre, gitdir] =>
      if refPre ≠ "" then .error ".git file has invalid git dir reference format"
      else
        let repoPath2 :=
          if pyIsAbs gitdir then gitdir
          else pathJoin (beforeFirst repoPath ".git") gitdir
        if fs.isDir repoPath2 then .ok repoPath2
        else .error (repoPath2 ++ " is not a directory")
    | _ => .error "not enough values to unpack"
  else .ok repoPath

/-- Python `comment.replace("\"", "\\\"", -1)` on the character list:
every double quote gains a preceding backslash; nothing else changes. -/
def escChars : List Char → List Char
  | [] => []
  | c :: r => if c = '"' then '\\' :: '"' :: escChars r else c :: escChars r

/-- The escaping applied to the commit message before it is interpolated
into `commit -m "<comment>"` (src line 372). -/
def escapeComment (s : String) : String := String.mk (escChars s.data)

/-- Double-quoted-string scanning as `shlex`/the shell undo the quoting when
the commit command line is parsed: a backslash escapes a following quote or
backslash (both characters consumed, the second kept), a backslash before
any other character is retained together with that character, and the first
unescaped quote terminates the string, returning the content read so far
and the remaining characters.  `none` when no unescaped quote remains. -/
def dqSplit : List Char → Option (List Char × List Char)
  | [] => none
  | c :: rest =>
    if c = '"' then some ([], rest)
    else if c = '\\' then
      match rest with
      | [] => none
      | d :: rest2 =>
        if d = '"' ∨ d = '\\' then (dqSplit rest2).map (fun p => (d :: p.1, p.2))
        else (dqSplit rest2).map (fun p => ('\\' :: d :: p.1, p.2))
    else (dqSplit rest).map (fun p => (c :: p.1, p.2))

/-- The validated configuration of one invocation, as extracted from
`module.params` in src lines 247-261.  Optional fields are `None`-able
parameters; `executable` overrides the discovered `git` binary. -/
structure Params where
  localPath : String
  user : Option String
  token : Option String
  comment : Option String
  add : List String
  branch : String
  remote : String
  push : Bool
  setUpstream : Bool
  commit : Bool
  pushOption : Option String
  mode : String
  keyFile : Option String
  sshOpts : Option String
  executable : Option String

/-- External-world oracle: the resolved `git` binary (`None` when
`module.get_bin_path('git', True)` finds nothing), the temporary path
produced by `write_ssh_wrapper`, and the behaviour of every
`module.run_command(cmd, cwd=...)` call made by a pipeline step. -/
structure World where
  gitBin : Option String
  wrapperPath : String
  runCommand : String → Option String → Int × String × String

/-- A pipeline step is either a `run_command` invocation with a fixed
command line and working directory, or the in-process `_get_diff_index`
parser. -/
inductive StepKind
  | run (cmd : String) (cwd : Option String)
  | diffIndex
deriving DecidableEq

/-- Python truthiness of the `push_option` parameter applied at src line
379: `"--push-option={}".format(push_option) if push_option else ""`. -/
def pushOptionArg : Option String → String
  | some s => if !s.data.isEmpty then "--push-option=" ++ s else ""
  | none => ""

/-- The `commands` list built in src lines 305-393: the staging triple when
`add` is truthy (non-empty), the commit step when `commit` is true, the
push step when `push` is true.  Every `run_command` step passes
`cwd=local_path`, and the command strings reproduce the source's `format`
calls character for character (including the double spaces left by empty
optional fields of the push command). -/
def buildCommands (gitPath repoPath : String) (p : Params) : List (String × StepKind) :=
  (if !p.add.isEmpty then
    [("git_add",
      StepKind.run (gitPath ++ " -C " ++ repoPath ++ " add " ++ joinSp p.add)
        (some p.localPath)),
     ("git_files_added",
      StepKind.run (gitPath ++ " -C " ++ repoPath ++ " diff-index --cached --name-status HEAD")
        (some p.localPath)),
     ("git_staged_files", StepKind.diffIndex)]
   else [])
  ++ (if p.commit then
    [("git_commit",
      StepKind.run
        (gitPath ++ " -C " ++ repoPath ++ " commit -m \"" ++ escapeComment (p.comment.getD "") ++ "\"")
        (some p.localPath))]
    else [])
  ++ (if p.push then
    [("git_push",
      StepKind.run
        (gitPath ++ " -C " ++ repoPath ++ " push " ++ pushOptionArg p.pushOption ++ " "
          ++ p.remote ++ " " ++ (if p.setUpstream then "--set-upstream " else "") ++ " " ++ p.branch)
        (some p.localPath))]
    else [])

/-- Execute one pipeline step against the world, given the previous step's
`prev_results` tuple. -/
def execStep (w : World) : StepKind → List PyObj → Except StepExit (Int × String × String)
  | .run cmd cwd, _ => .ok (w.runCommand cmd cwd)
  | .diffIndex, prevArgs => getDiffIndexStep prevArgs

/-- Terminal states of one run. -/
inductive Outcome
  | exitJson (changed : Bool) (files : Changes)
  | failJson (msg : String)
  | crashed (e : PyErr)
deriving DecidableEq

/-- The execution loop of src lines 395-405: run each step on the previous
results; a non-zero exit code fails the run immediately with
`"Failed to <label>: <out> <err>"`; otherwise the results are threaded to
the next step.  Falling off the end is the final `module.exit_json(**result)`
with the untouched empty `result` dict (reported as an unchanged run).
The first component collects the labels of the steps that executed. -/
def runSteps (w : World) : List PyObj → List (String × StepKind) → List String × Outcome
  | _, [] => ([], .exitJson false ⟨[], [], []⟩)
  | prevArgs, (label, k) :: rest =>
    match execStep w k prevArgs with
    | .error (.exitJson c f) => ([label], .exitJson c f)
    | .error (.pyErr e) => ([label], .crashed e)
    | .ok (rc, out, err) =>
      if rc ≠ 0 then ([label], .failJson ("Failed to " ++ label ++ ": " ++ out ++ " " ++ err))
      else
        let r := runSteps w [.pint rc, .pstr out, .pstr err] rest
        (label :: r.1, r.2)

/-- The final `prev_results` tuple after a list of steps that all succeed
with exit code zero (`none` when some step fails, exits or crashes). -/
def runStepsOk (w : World) : List PyObj → List (String × StepKind) → Option (List PyObj)
  | prevArgs, [] => some prevArgs
  | prevArgs, (_, k) :: rest =>
    match execStep w k prevArgs with
    | .ok (rc, out, err) =>
      if rc ≠ 0 then none
      else runStepsOk w [.pint rc, .pstr out, .pstr err] rest
    | .error _ => none

/-- The expression `module.params['executable'] or module.get_bin_path('git', True)`
(src line 261): a truthy override wins, otherwise the discovered binary,
otherwise `get_bin_path` fails the module. -/
def gitPathResolve (p : Params) (w : World) : Except String String :=
  match p.executable with
  | some e =>
    if !e.data.isEmpty then .ok e
    else match w.gitBin with
      | some g => .ok g
      | none => .error "Failed to find required executable git"
  | none =>
    match w.gitBin with
    | some g => .ok g
    | none => .error "Failed to find required executable git"

/-- Observables of one run of the body of `main` after parameter
extraction: the effective `ssh_opts`, whether the C-locale
`run_command_environ_update` was installed, whether the SSH wrapper script
was created, the process environment after `set_git_ssh`, the built command
list, the labels of the executed steps, and the terminal outcome. -/
structure MainObs where
  sshOptsEff : Option String
  localeForced : Bool
  wrapperCreated : Bool
  envFinal : EnvMap
  commands : List (String × StepKind)
  trace : List String
  outcome : Outcome

/-- An observation for a run that ended before the wrapper was created:
no commands built, no steps executed, environment untouched. -/
def emptyObs (env0 : EnvMap) (o : Outcome) : MainObs :=
  { sshOptsEff := none, localeForced := false, wrapperCreated := false,
    envFinal := env0, commands := [], trace := [], outcome := o }

/-- The body of `main` from src line 261 to 405, as a function of the
extracted parameter values (`acceptHostkey` stands for the value the
`module.params['accept_hostkey']` lookup of line 270 would produce if it
did not raise — see `mainParamPhase` for the lookup itself): resolve the
git binary, check the commit/comment combination, apply the host-key
update, resolve the repository path, unconditionally create the wrapper
script and export the SSH environment, build the command list and run it. -/
def mainModel (p : Params) (acceptHostkey : Bool) (fs : FS) (env0 : EnvMap) (w : World) :
    MainObs :=
  match gitPathResolve p w with
  | .error msg => emptyObs env0 (.failJson msg)
  | .ok gitPath =>
    if p.commit && !optTruthy p.comment then
      emptyObs env0 (.failJson "Comment must be provided in order commit changes.")
    else
      let su := hostkeyUpdate acceptHostkey p.sshOpts
      match get_repo_path fs p.localPath with
      | .error _e =>
        { emptyObs env0
            (.failJson "Current repo does not have a valid reference to a separate Git dir or it refers to the invalid path") with
          sshOptsEff := su.1, localeForced := su.2 }
      | .ok repoPath =>
        let env1 := set_git_ssh env0 w.wrapperPath p.keyFile su.1
        let commands := buildCommands gitPath repoPath p
        let r := runSteps w [] commands
        { sshOptsEff := su.1, localeForced := su.2, wrapperCreated := true,
          envFinal := env1, commands := commands, trace := r.1, outcome := r.2 }

/-- Python values stored in the `module.params` dict. -/
inductive PyVal
  | vnone
  | vbool (b : Bool)
  | vstr (s : String)
  | vint (n : Int)
  | vlist (l : List String)
deriving DecidableEq

/-- Python truthiness for `module.params` values. -/
def pyTruthy : PyVal → Bool
  | .vnone => false
  | .vbool b => b
  | .vstr s => !s.data.isEmpty
  | .vint n => n != 0
  | .vlist l => !l.isEmpty

/-- Coerce a params value to the string it holds (declared string/path
parameters). -/
def pyToStr : PyVal → String
  | .vstr s => s
  | _ => ""

/-- Coerce a params value to an optional string (`None`-able parameters). -/
def pyToOptStr : PyVal → Option String
  | .vstr s => some s
  | _ => none

/-- Coerce a params value to a path list (the `add` parameter). -/
def pyToList : PyVal → List String
  | .vlist l => l
  | .vstr s => [s]
  | _ => []

/-- The `module.params` dict, a partial map from parameter names to values.
After `AnsibleModule` validation it is defined exactly on the declared
`argument_spec` keys (undeclared supplied keys abort the module earlier as
unsupported parameters). -/
def ParamsDict : Type := String → Option PyVal

/-- The parameter names declared in the `argument_spec` of src lines
221-237. -/
def argumentSpecKeys : List String :=
  ["local_path", "user", "token", "comment", "add", "branch", "remote", "push",
   "set_upstream", "commit", "push_option", "mode", "key_file", "ssh_opts", "executable"]

/-- Outcomes of the parameter-extraction phase that end the run before any
pipeline command exists: an uncaught `KeyError` from a dict lookup, or a
`module.fail_json` call. -/
inductive PhaseExit
  | keyErr (k : String)
  | failJson (msg : String)
deriving DecidableEq

/-- The parameter extraction of src lines 247-270 with Python dict-lookup
semantics: each `module.params[k]` either yields the stored value or raises
`KeyError`.  The lookups happen in source order, followed by the
`executable or get_bin_path` resolution (line 261), the commit/comment
check (line 263), and finally the `module.params['accept_hostkey']` lookup
of line 270, whose value is returned. -/
def mainParamPhase (d : ParamsDict) (gitBin : Option String) : Except PhaseExit PyVal :=
  match d "local_path" with
  | none => .error (.keyErr "local_path")
  | some _ =>
  match d "user" with
  | none => .error (.keyErr "user")
  | some _ =>
  match d "token" with
  | none => .error (.keyErr "token")
  | some _ =>
  match d "comment" with
  | none => .error (.keyErr "comment")
  | some commentV =>
  match d "add" with
  | none => .error (.keyErr "add")
  | some _ =>
  match d "branch" with
  | none => .error (.keyErr "branch")
  | some _ =>
  match d "remote" with
  | none => .error (.keyErr "remote")
  | some _ =>
  match d "push" with
  | none => .error (.keyErr "push")
  | some _ =>
  match d "set_upstream" with
  | none => .error (.keyErr "set_upstream")
  | some _ =>
  match d "commit" with
  | none => .error (.keyErr "commit")
  | some commitV =>
  match d "push_option" with
  | none => .error (.keyErr "push_option")
  | some _ =>
  match d "mode" with
  | none => .error (.keyErr "mode")
  | some _ =>
  match d "key_file" with
  | none => .error (.keyErr "key_file")
  | some _ =>
  match d "ssh_opts" with
  | none => .error (.keyErr "ssh_opts")
  | some _ =>
  match d "executable" with
  | none => .error (.keyErr "executable")
  | some execV =>
  match (if pyTruthy execV then some (pyToStr execV) else gitBin) with
  | none => .error (.failJson "Failed to find required executable git")
  | some _gitPath =>
  if pyTruthy commitV && !pyTruthy commentV then
    .error (.failJson "Comment must be provided in order commit changes.")
  else
    match d "accept_hostkey" with
    | none => .error (.keyErr "accept_hostkey")
    | some v => .ok v

/-- Read the typed configuration out of a params dict (defaults stand in
for the coercions Ansible already guarantees on declared parameters). -/
def toParams (d : ParamsDict) : Params :=
  { localPath := pyToStr ((d "local_path").getD .vnone),
    user := pyToOptStr ((d "user").getD .vnone),
    token := pyToOptStr ((d "token").getD .vnone),
    comment := pyToOptStr ((d "comment").getD .vnone),
    add := pyToList ((d "add").getD .vnone),
    branch := pyToStr ((d "branch").getD .vnone),
    remote := pyToStr ((d "remote").getD .vnone),
    push := pyTruthy ((d "push").getD .vnone),
    setUpstream := pyTruthy ((d "set_upstream").getD .vnone),
    commit := pyTruthy ((d "commit").getD .vnone),
    pushOption := pyToOptStr ((d "push_option").getD .vnone),
    mode := pyToStr ((d "mode").getD .vnone),
    keyFile := pyToOptStr ((d "key_file").getD .vnone),
    sshOpts := pyToOptStr ((d "ssh_opts").getD .vnone),
    executable := pyToOptStr ((d "executable").getD .vnone) }

/-- A whole invocation of `main` over a params dict: the extraction phase
of src lines 247-270 followed, on success, by the rest of the body.  An
uncaught `KeyError` or an early `fail_json` ends the run with no commands
built and no steps executed. -/
def mainRun (d : ParamsDict) (fs : FS) (env0 : EnvMap) (w : World) : MainObs :=
  match mainParamPhase d w.gitBin with
  | .error (.keyErr k) => emptyObs env0 (.crashed (.keyError k))
  | .error (.failJson m) => emptyObs env0 (.failJson m)
  | .ok ahv => mainModel (toParams d) (pyTruthy ahv) fs env0 w

/-- An empty process environment. -/
def env0 : EnvMap := fun _ => none

/-- A filesystem with no files and no directories: `<path>/.git` is neither
a file nor a directory, so the locator returns it unresolved. -/
def fs0 : FS := { isFile := fun _ => false, isDir := fun _ => false, content := fun _ => "" }

/-- A filesystem where `/srv/my.gitrepo/.git` is an indirection file whose
relative target exists only under the truncated base `/srv/my`. -/
def fs5 : FS :=
  { isFile := fun p => p = "/srv/my.gitrepo/.git",
    isDir := fun p => p = "/srv/my/modules/sub",
    content := fun _ => "gitdir: modules/sub\n" }

/-- A filesystem realising the sibling-worktree scenario:
`/tmp/work/.git` is a file pointing at `../other/.git`, which exists. -/
def fsW : FS :=
  { isFile := fun p => p = "/tmp/work/.git",
    isDir := fun p => p = "/tmp/work/../other/.git",
    content := fun _ => "gitdir: ../other/.git" }

/-- A world whose git invocations all succeed with empty output. -/
def w0 : World :=
  { gitBin := some "git", wrapperPath := "/tmp/wrapper123",
    runCommand := fun _ _ => (0, "", "") }

/-- A world whose git invocations succeed and report one staged
modification of `a.txt`. -/
def w3 : World :=
  { gitBin := some "git", wrapperPath := "/tmp/wrapper123",
    runCommand := fun _ _ => (0, "M\ta.txt", "") }

/-- A world where exactly the command `PUSH` fails with exit code 1. -/
def w9 : World :=
  { gitBin := some "git", wrapperPath := "/tmp/w",
    runCommand := fun c _ => if c = "PUSH" then (1, "out9", "err9") else (0, "", "") }

/-- Default-flavoured parameters: commit and push enabled, staging
everything, ssh mode, an explicit git executable. -/
def pBase : Params :=
  { localPath := "/repo", user := none, token := none, comment := some "msg",
    add := ["."], branch := "master", remote := "origin", push := true,
    setUpstream := false, commit := true, pushOption := none, mode := "ssh",
    keyFile := none, sshOpts := none, executable := some "git" }

/-- Parameters staging exactly `a.txt`. -/
def p3 : Params := { pBase with add := ["a.txt"] }

/-- Parameters requesting https mode with credentials. -/
def p7 : Params := { pBase with mode := "https", user := some "u", token := some "t" }

/-- Parameters for a run rooted at `/repo8`. -/
def p8 : Params := { pBase with localPath := "/repo8", comment := some "msg8" }

/-- A params dict defined on exactly the declared keys, with `commit=true`
and an empty-string `comment` (present, hence accepted by the declarative
validation, but falsy at the line-263 check). -/
def d0 : ParamsDict := fun k =>
  if k = "local_path" then some (.vstr "/repo") else
  if k = "user" then some .vnone else
  if k = "token" then some .vnone else
  if k = "comment" then some (.vstr "") else
  if k = "add" then some (.vlist ["."]) else
  if k = "branch" then some (.vstr "master") else
  if k = "remote" then some (.vstr "origin") else
  if k = "push" then some (.vbool true) else
  if k = "set_upstream" then some (.vbool false) else
  if k = "commit" then some (.vbool true) else
  if k = "push_option" then some .vnone else
  if k = "mode" then some (.vstr "ssh") else
  if k = "key_file" then some .vnone else
  if k = "ssh_opts" then some .vnone else
  if k = "executable" then some (.vstr "git") else none

/-- Like `d0` but with a non-empty comment, so the run reaches the
`accept_hostkey` lookup. -/
def d1 : ParamsDict := fun k => if k = "comment" then some (.vstr "ok") else d0 k

theorem classifyLoop_spec :
    ∀ (lines : List String) (c c2 : Changes), classifyLoop c lines = .ok c2 →
      c2.added = c.added ++ lines.filterMap (tokOf "A")
      ∧ c2.modified = c.modified ++ lines.filterMap (tokOf "M")
      ∧ c2.deleted = c.deleted ++ lines.filterMap (tokOf "D") := by
  intro lines
  induction lines with
  | nil =>
    intro c c2 h
    simp only [classifyLoop] at h
    cases h
    simp
  | cons line rest ih =>
    intro c c2 h
    simp only [classifyLoop] at h
    rcases hrs : reSplitWs line with _ | ⟨a, _ | ⟨f, _ | ⟨x, xs⟩⟩⟩ <;>
      simp only [classifyStep, hrs] at h
    · exact absurd h (by simp)
    · exact absurd h (by simp)
    · by_cases hA : a = "A"
      · subst hA
        simp only [String.reduceEq, reduceIte] at h
        obtain ⟨h1, h2, h3⟩ := ih _ _ h
        refine ⟨?_, ?_, ?_⟩ <;> simp_all [List.filterMap_cons, tokOf, hrs]
      · by_cases hD : a = "D"
        · subst hD
          simp only [String.reduceEq, reduceIte] at h
          obtain ⟨h1, h2, h3⟩ := ih _ _ h
          refine ⟨?_, ?_, ?_⟩ <;> simp_all [List.filterMap_cons, tokOf, hrs]
        · by_cases hM : a = "M"
          · subst hM
            simp only [String.reduceEq, reduceIte] at h
            obtain ⟨h1, h2, h3⟩ := ih _ _ h
            refine ⟨?_, ?_, ?_⟩ <;> simp_all [List.filterMap_cons, tokOf, hrs]
          · simp only [if_neg hA, if_neg hD, if_neg hM] at h
            obtain ⟨h1, h2, h3⟩ := ih _ _ h
            refine ⟨?_, ?_, ?_⟩ <;> simp_all [List.filterMap_cons, tokOf, hrs]
    · exact absurd h (by simp)

theorem tokOf_toksnd (letter line x : String) (h : tokOf letter line = some x) :
    tokSnd line = some x := by
  unfold tokOf at h
  unfold tokSnd
  rcases hrs : reSplitWs line with _ | ⟨a, _ | ⟨f, _ | ⟨y, ys⟩⟩⟩ <;> simp only [hrs] at h ⊢
  · exact absurd h (by simp)
  · exact absurd h (by simp)
  · split at h
    · simpa using h
    · exact absurd h (by simp)
  · exact absurd h (by simp)

theorem filterMap_tokOf_mem (letter : String) (lines : List String) (x : String)
    (hx : x ∈ lines.filterMap (tokOf letter)) : x ∈ lines.filterMap tokSnd := by
  rw [List.mem_filterMap] at hx ⊢
  obtain ⟨line, hline, htok⟩ := hx
  exact ⟨line, hline, tokOf_toksnd letter line x htok⟩

theorem buckets_disjoint (l1 l2 : String) (hne : l1 ≠ l2) :
    ∀ lines : List String, (lines.filterMap tokSnd).Nodup →
      List.Disjoint (lines.filterMap (tokOf l1)) (lines.filterMap (tokOf l2)) := by
  intro lines
  induction lines with
  | nil => intro _; simp
  | cons line rest ih =>
    intro hnd
    rcases hsnd : tokSnd line with _ | f
    · have h1 : tokOf l1 line = none := by
        rcases h : tokOf l1 line with _ | x
        · rfl
        · exact absurd (tokOf_toksnd l1 line x h) (by simp [hsnd])
      have h2 : tokOf l2 line = none := by
        rcases h : tokOf l2 line with _ | x
        · rfl
        · exact absurd (tokOf_toksnd l2 line x h) (by simp [hsnd])
      rw [List.filterMap_cons_none h1, List.filterMap_cons_none h2]
      refine ih ?_
      rwa [List.filterMap_cons_none hsnd] at hnd
    · rw [List.filterMap_cons_some hsnd] at hnd
      have hnd2 := List.nodup_cons.mp hnd
      have hshape : ∃ a, reSplitWs line = [a, f] := by
        unfold tokSnd at hsnd
        rcases hrs : reSplitWs line with _ | ⟨a, _ | ⟨g, _ | ⟨y, ys⟩⟩⟩ <;> simp only [hrs] at hsnd
        · exact absurd hsnd (by simp)
        · exact absurd hsnd (by simp)
        · injection hsnd with hgf
          subst hgf
          exact ⟨a, rfl⟩
        · exact absurd hsnd (by simp)
      obtain ⟨a, hrs⟩ := hshape
      have ht1 : tokOf l1 line = if a = l1 then some f else none := by simp [tokOf, hrs]
      have ht2 : tokOf l2 line = if a = l2 then some f else none := by simp [tokOf, hrs]
      by_cases ha1 : a = l1 <;> by_cases ha2 : a = l2
      · exact absurd (ha1 ▸ ha2) hne
      · rw [List.filterMap_cons_some (by rw [ht1, if_pos ha1]),
            List.filterMap_cons_none (by rw [ht2, if_neg ha2])]
        rw [List.disjoint_cons_left]
        exact ⟨fun hmem => hnd2.1 (filterMap_tokOf_mem l2 rest f hmem), ih hnd2.2⟩
      · rw [List.filterMap_cons_none (by rw [ht1, if_neg ha1]),
            List.filterMap_cons_some (by rw [ht2, if_pos ha2])]
        rw [List.disjoint_cons_right]
        exact ⟨fun hmem => hnd2.1 (filterMap_tokOf_mem l1 rest f hmem), ih hnd2.2⟩
      · rw [List.filterMap_cons_none (by rw [ht1, if_neg ha1]),
            List.filterMap_cons_none (by rw [ht2, if_neg ha2])]
        exact ih hnd2.2

/-- C4 counterexample: a well-formed input that lists the same path once as
added and once as deleted puts that path in two buckets, refuting the
claim's unconditional cross-bucket disjointness. -/
theorem duplicate_path_two_buckets_cex :
    classifyLoop ⟨[], [], []⟩ ["A\tf.txt", "D\tf.txt"] = .ok ⟨["f.txt"], [], ["f.txt"]⟩
    ∧ "f.txt" ∈ (⟨["f.txt"], [], ["f.txt"]⟩ : Changes).added
    ∧ "f.txt" ∈ (⟨["f.txt"], [], ["f.txt"]⟩ : Changes).deleted := by decide

/-- C4 amended: whenever the classification loop succeeds, each bucket is
exactly the in-order sequence of second tokens of the lines carrying its
status letter (so each line lands in at most one bucket and input order is
preserved); and when no path occurs as the second token of two different
lines, the buckets are pairwise disjoint. -/
theorem diff_status_classification (lines : List String) (c2 : Changes)
    (h : classifyLoop ⟨[], [], []⟩ lines = .ok c2) :
    (c2.added = lines.filterMap (tokOf "A")
     ∧ c2.modified = lines.filterMap (tokOf "M")
     ∧ c2.deleted = lines.filterMap (tokOf "D"))
    ∧ ((lines.filterMap tokSnd).Nodup →
       List.Disjoint c2.added c2.modified
       ∧ List.Disjoint c2.added c2.deleted
       ∧ List.Disjoint c2.modified c2.deleted) := by
  obtain ⟨ha, hm, hd⟩ := classifyLoop_spec lines ⟨[], [], []⟩ c2 h
  simp only [List.nil_append] at ha hm hd
  refine ⟨⟨ha, hm, hd⟩, fun hnd => ?_⟩
  rw [ha, hm, hd]
  exact ⟨buckets_disjoint "A" "M" (by decide) lines hnd,
         buckets_disjoint "A" "D" (by decide) lines hnd,
         buckets_disjoint "M" "D" (by decide) lines hnd⟩

/-- C4 witness: the amended classification theorem applied to a concrete
three-line input with one modified, one added and one ignored line. -/
theorem diff_status_classification_witness :
    (((⟨["b.txt"], ["a.txt"], []⟩ : Changes).added
        = ["M\ta.txt", "A\tb.txt", "X\tc.txt"].filterMap (tokOf "A")
      ∧ (⟨["b.txt"], ["a.txt"], []⟩ : Changes).modified
        = ["M\ta.txt", "A\tb.txt", "X\tc.txt"].filterMap (tokOf "M")
      ∧ (⟨["b.txt"], ["a.txt"], []⟩ : Changes).deleted
        = ["M\ta.txt", "A\tb.txt", "X\tc.txt"].filterMap (tokOf "D"))
     ∧ ((["M\ta.txt", "A\tb.txt", "X\tc.txt"].filterMap tokSnd).Nodup →
        List.Disjoint (⟨["b.txt"], ["a.txt"], []⟩ : Changes).added
            (⟨["b.txt"], ["a.txt"], []⟩ : Changes).modified
        ∧ List.Disjoint (⟨["b.txt"], ["a.txt"], []⟩ : Changes).added
            (⟨["b.txt"], ["a.txt"], []⟩ : Changes).deleted
        ∧ List.Disjoint (⟨["b.txt"], ["a.txt"], []⟩ : Changes).modified
            (⟨["b.txt"], ["a.txt"], []⟩ : Changes).deleted)) :=
  diff_status_classification ["M\ta.txt", "A\tb.txt", "X\tc.txt"]
    ⟨["b.txt"], ["a.txt"], []⟩ (by decide)

theorem runStepsOk_append (w : World) :
    ∀ (pre : List (String × StepKind)) (prevArgs p : List PyObj)
      (rest : List (String × StepKind)),
      runStepsOk w prevArgs pre = some p →
      runSteps w prevArgs (pre ++ rest) =
        (pre.map Prod.fst ++ (runSteps w p rest).1, (runSteps w p rest).2) := by
  intro pre
  induction pre with
  | nil =>
    intro prevArgs p rest h
    simp only [runStepsOk] at h
    cases h
    simp
  | cons hd tl ih =>
    intro prevArgs p rest h
    obtain ⟨label, k⟩ := hd
    simp only [runStepsOk] at h
    cases hex : execStep w k prevArgs with
    | error e => simp [hex] at h
    | ok t =>
      obtain ⟨rc, out, err⟩ := t
      simp only [hex] at h
      by_cases hrc : rc = 0
      · rw [if_neg (by simp [hrc])] at h
        simp only [List.cons_append, runSteps, hex]
        rw [if_neg (by simp [hrc])]
        simp only [List.append_eq]
        rw [ih _ _ rest h]
        simp
      · rw [if_pos hrc] at h
        exact absurd h (by simp)

/-- C9: a pipeline step that returns a non-zero exit code, after a prefix of
steps that all succeeded, fails the run immediately with the message
carrying that step's label and its captured stdout and stderr, and none of
the later steps execute (the trace is exactly the prefix labels plus the
failing label). -/
theorem step_failure_short_circuits (w : World) (prevArgs p : List PyObj)
    (pre rest : List (String × StepKind)) (label : String) (k : StepKind)
    (rc : Int) (out err : String)
    (hpre : runStepsOk w prevArgs pre = some p)
    (hstep : execStep w k p = .ok (rc, out, err))
    (hrc : rc ≠ 0) :
    runSteps w prevArgs (pre ++ (label, k) :: rest) =
      (pre.map Prod.fst ++ [label],
       .failJson ("Failed to " ++ label ++ ": " ++ out ++ " " ++ err)) := by
  rw [runStepsOk_append w pre prevArgs p ((label, k) :: rest) hpre]
  simp only [runSteps, hstep, if_pos hrc]

/-- C9 witness: in a world where the push command exits 1, a pipeline of a
succeeding commit step followed by the push step and one further step stops
at `git_push` with the captured stdout and stderr in the failure message. -/
theorem step_failure_short_circuits_witness :
    runSteps w9 []
      ([("git_commit", StepKind.run "OK" (some "/p"))]
        ++ ("git_push", StepKind.run "PUSH" (some "/p"))
          :: [("git_extra", StepKind.run "OK" (some "/p"))]) =
      ([("git_commit", StepKind.run "OK" (some "/p"))].map Prod.fst ++ ["git_push"],
       .failJson ("Failed to " ++ "git_push" ++ ": " ++ "out9" ++ " " ++ "err9")) :=
  step_failure_short_circuits w9 [] [.pint 0, .pstr "", .pstr ""]
    [("git_commit", StepKind.run "OK" (some "/p"))]
    [("git_extra", StepKind.run "OK" (some "/p"))]
    "git_push" (StepKind.run "PUSH" (some "/p")) 1 "out9" "err9"
    (by decide) (by decide) (by decide)

theorem opt_isSome_exists {α : Type} {o : Option α} (h : o.isSome = true) :
    ∃ v, o = some v := by
  cases o with
  | none => simp at h
  | some v => exact ⟨v, rfl⟩

/-- C1 counterexample: a params dict defined on exactly the declared keys,
with `commit=true` and an empty `comment`, exits through the line-263
`fail_json` and never raises the `accept_hostkey` `KeyError`, refuting the
claim's universal quantification over invocations. -/
theorem empty_comment_no_keyerror_cex :
    (∀ k ∈ argumentSpecKeys, (d0 k).isSome = true)
    ∧ d0 "accept_hostkey" = none
    ∧ mainParamPhase d0 (some "git")
      = .error (.failJson "Comment must be provided in order commit changes.")
    ∧ mainParamPhase d0 (some "git") ≠ .error (.keyErr "accept_hostkey") := by decide

/-- C1 amended: `accept_hostkey` is not among the declared argument-spec
keys, and every invocation whose params dict is defined on the declared
keys, which resolves a git executable, and which passes the line-263
commit/comment check, raises `KeyError` at the `accept_hostkey` lookup —
before any pipeline command is constructed or executed. -/
theorem accept_hostkey_lookup_keyerror (d : ParamsDict) (fs : FS) (e0 : EnvMap) (w : World)
    (hdecl : ∀ k ∈ argumentSpecKeys, (d k).isSome = true)
    (hA : d "accept_hostkey" = none)
    (hgit : pyTruthy ((d "executable").getD PyVal.vnone) = true ∨ w.gitBin.isSome = true)
    (hcc : pyTruthy ((d "commit").getD PyVal.vnone) = false
      ∨ pyTruthy ((d "comment").getD PyVal.vnone) = true) :
    "accept_hostkey" ∉ argumentSpecKeys
    ∧ mainParamPhase d w.gitBin = .error (.keyErr "accept_hostkey")
    ∧ (mainRun d fs e0 w).outcome = .crashed (.keyError "accept_hostkey")
    ∧ (mainRun d fs e0 w).commands = []
    ∧ (mainRun d fs e0 w).trace = [] := by
  obtain ⟨v1, h1⟩ := opt_isSome_exists (hdecl "local_path" (by decide))
  obtain ⟨v2, h2⟩ := opt_isSome_exists (hdecl "user" (by decide))
  obtain ⟨v3, h3⟩ := opt_isSome_exists (hdecl "token" (by decide))
  obtain ⟨v4, h4⟩ := opt_isSome_exists (hdecl "comment" (by decide))
  obtain ⟨v5, h5⟩ := opt_isSome_exists (hdecl "add" (by decide))
  obtain ⟨v6, h6⟩ := opt_isSome_exists (hdecl "branch" (by decide))
  obtain ⟨v7, h7⟩ := opt_isSome_exists (hdecl "remote" (by decide))
  obtain ⟨v8, h8⟩ := opt_isSome_exists (hdecl "push" (by decide))
  obtain ⟨v9, h9⟩ := opt_isSome_exists (hdecl "set_upstream" (by decide))
  obtain ⟨v10, h10⟩ := opt_isSome_exists (hdecl "commit" (by decide))
  obtain ⟨v11, h11⟩ := opt_isSome_exists (hdecl "push_option" (by decide))
  obtain ⟨v12, h12⟩ := opt_isSome_exists (hdecl "mode" (by decide))
  obtain ⟨v13, h13⟩ := opt_isSome_exists (hdecl "key_file" (by decide))
  obtain ⟨v14, h14⟩ := opt_isSome_exists (hdecl "ssh_opts" (by decide))
  obtain ⟨v15, h15⟩ := opt_isSome_exists (hdecl "executable" (by decide))
  rw [h10, h4] at hcc
  rw [h15] at hgit
  simp only [Option.getD_some] at hcc hgit
  have hphase : mainParamPhase d w.gitBin = .error (.keyErr "accept_hostkey") := by
    simp only [mainParamPhase, h1, h2, h3, h4, h5, h6, h7, h8, h9, h10, h11, h12, h13, h14, h15]
    cases hex : pyTruthy v15 with
    | true =>
      rcases hcc with hc | hc <;> simp [hex, hc, hA]
    | false =>
      rcases hgit with hg | hg
      · rw [hex] at hg
        exact absurd hg (by simp)
      · obtain ⟨g, hgs⟩ := opt_isSome_exists hg
        rcases hcc with hc | hc <;> simp [hex, hgs, hc, hA]
  refine ⟨by decide, hphase, ?_, ?_, ?_⟩ <;> simp [mainRun, hphase, emptyObs]

/-- C1 witness: the amended theorem applied to a dict on exactly the
declared keys with a non-empty comment. -/
theorem accept_hostkey_lookup_keyerror_witness :
    "accept_hostkey" ∉ argumentSpecKeys
    ∧ mainParamPhase d1 w0.gitBin = .error (.keyErr "accept_hostkey")
    ∧ (mainRun d1 fs0 env0 w0).outcome = .crashed (.keyError "accept_hostkey")
    ∧ (mainRun d1 fs0 env0 w0).commands = []
    ∧ (mainRun d1 fs0 env0 w0).trace = [] :=
  accept_hostkey_lookup_keyerror d1 fs0 env0 w0 (by decide) (by decide)
    (by decide) (by decide)

/-- C2 (code bug): on empty staged-diff output the run does not terminate
successfully with `changed=false`; `_get_diff_index` crashes with
`AttributeError` because `args[:-1]` is a tuple (first conjunct), the full
pipeline therefore dies at the `git_staged_files` step before commit and
push (trace and outcome conjuncts), and even under the intended string
read, `''.split('\n')` is the non-empty `['']`, whose single empty line
makes the classification loop raise `ValueError` instead of reaching the
empty-diff `exit_json` branch (last two conjuncts). -/
theorem empty_diff_output_crashes :
    getDiffIndexStep [PyObj.pint 0, PyObj.pstr "", PyObj.pstr ""]
      = .error (.pyErr .attributeError)
    ∧ (mainModel pBase false fs0 env0 w0).trace
      = ["git_add", "git_files_added", "git_staged_files"]
    ∧ (mainModel pBase false fs0 env0 w0).outcome = .crashed .attributeError
    ∧ pySplitNl "" = [""]
    ∧ classifyLoop ⟨[], [], []⟩ [""] = .error .valueError := by decide

/-- C3 (code bug): with `add=["a.txt"]` and staged-diff output `M\ta.txt`
the run does not report `changed=true` and proceed to commit and push:
`_get_diff_index` crashes with `AttributeError` on the tuple slice, ending
the run at `git_staged_files` (first three conjuncts); the classification
loop itself, fed the intended line, would produce exactly
`modified=["a.txt"]` as the claim describes (last conjunct). -/
theorem modified_line_crashes :
    getDiffIndexStep [PyObj.pint 0, PyObj.pstr "M\ta.txt", PyObj.pstr ""]
      = .error (.pyErr .attributeError)
    ∧ (mainModel p3 false fs0 env0 w3).trace
      = ["git_add", "git_files_added", "git_staged_files"]
    ∧ (mainModel p3 false fs0 env0 w3).outcome = .crashed .attributeError
    ∧ classifyLoop ⟨[], [], []⟩ ["M\ta.txt"] = .ok ⟨[], ["a.txt"], []⟩ := by decide

/-- C5 counterexample: for the working tree `/srv/my.gitrepo`, whose path
contains `.git` as a substring, the relative target `modules/sub` is joined
to `/srv/my` — the text before the first `.git` occurrence — not to the
directory `/srv/my.gitrepo` containing the `.git` entry, so resolution
succeeds with a different directory even though the claim-resolved target
is not a directory. -/
theorem gitfile_resolution_base_cex :
    get_repo_path fs5 "/srv/my.gitrepo" = .ok "/srv/my/modules/sub"
    ∧ fs5.isDir (pathJoin "/srv/my.gitrepo" "modules/sub") = false := by decide

/-- C5 amended: a non-empty prefix before `gitdir: ` is an error; a
relative target is joined to the text of `<path>/.git` before the FIRST
occurrence of `.git` (which is the directory containing the `.git` entry
exactly when `.git` does not occur inside `<path>` itself); and when the
joined target is not an existing directory, resolution fails with the
not-a-directory `ValueError`. -/
theorem get_repo_path_gitfile :
    (∀ (fs : FS) (lp p2 tgt : String),
      fs.isFile (pathJoin lp ".git") = true →
      pySplit1 (pyRstrip (fs.content (pathJoin lp ".git"))) "gitdir: " = [p2, tgt] →
      p2 ≠ "" →
      get_repo_path fs lp = .error ".git file has invalid git dir reference format")
    ∧ (∀ (fs : FS) (lp tgt pre : String),
      fs.isFile (pathJoin lp ".git") = true →
      pySplit1 (pyRstrip (fs.content (pathJoin lp ".git"))) "gitdir: " = ["", tgt] →
      pyIsAbs tgt = false →
      beforeFirst (pathJoin lp ".git") ".git" = pre →
      get_repo_path fs lp =
        if fs.isDir (pathJoin pre tgt) then .ok (pathJoin pre tgt)
        else .error (pathJoin pre tgt ++ " is not a directory")) := by
  constructor
  · intro fs lp p2 tgt hf hsplit hp2
    simp only [get_repo_path, hf, if_true, hsplit]
    rw [if_pos hp2]
  · intro fs lp tgt pre hf hsplit habs hpre
    simp only [get_repo_path, hf, if_true, hsplit, habs, hpre]
    simp

/-- C5 witness: the amended theorem applied to the spec's sibling-worktree
scenario, where the path contains no interior `.git` and the relative
`../other/.git` target exists. -/
theorem get_repo_path_gitfile_witness :
    get_repo_path fsW "/tmp/work" = .ok "/tmp/work/../other/.git" := by
  have h := get_repo_path_gitfile.2 fsW "/tmp/work" "../other/.git" "/tmp/work/"
    (by decide) (by decide) (by decide) (by decide)
  rw [h]
  decide

/-- C6: with `accept_hostkey` true, an existing `ssh_opts` that does not
already contain the host-key flag has the flag appended after a single
space — the original content is preserved verbatim as a prefix (first
conjunct); the flag occurs exactly once in the effective string for the
spec's `-o Foo=bar` example (second conjunct); an absent `ssh_opts` becomes
exactly the flag (third conjunct); and a truthy effective string is
exported as `GIT_SSH_OPTS` for the run (fourth conjunct). -/
theorem hostkey_flag_append :
    (∀ s : String, strContains s hostkeyFlag = false →
      hostkeyUpdate true (some s) = (some (s ++ " " ++ hostkeyFlag), false))
    ∧ occursExactlyOnce ("-o Foo=bar" ++ " " ++ hostkeyFlag) hostkeyFlag = true
    ∧ hostkeyUpdate true none = (some hostkeyFlag, true)
    ∧ (∀ (e : EnvMap) (wp : String) (kf : Option String) (s : String), s ≠ "" →
      set_git_ssh e wp kf (some s) "GIT_SSH_OPTS" = some s) := by
  refine ⟨?_, by decide, by decide, ?_⟩
  · intro s h
    simp [hostkeyUpdate, h]
  · intro e wp kf s hs
    have hs2 : optTruthy (some s) = true := by
      cases s with
      | mk l =>
        cases l with
        | nil => exact absurd (by decide) hs
        | cons c cs => simp [optTruthy]
    simp [set_git_ssh, hs2, envSet, envDel]

/-- C6 witness: the appending theorem applied to the spec's concrete
`-o Foo=bar` scenario and to a concrete exported options string. -/
theorem hostkey_flag_append_witness :
    hostkeyUpdate true (some "-o Foo=bar")
      = (some ("-o Foo=bar" ++ " " ++ hostkeyFlag), false)
    ∧ set_git_ssh env0 "/tmp/w" none (some "-o X") "GIT_SSH_OPTS" = some "-o X" :=
  ⟨hostkey_flag_append.1 "-o Foo=bar" (by decide),
   hostkey_flag_append.2.2.2 env0 "/tmp/w" none "-o X" (by decide)⟩

theorem set_git_ssh_reads_wrapper (e : EnvMap) (wp : String) (kf so : Option String) :
    set_git_ssh e wp kf so "GIT_SSH" = some wp := by
  simp only [set_git_ssh]
  repeat' split
  all_goals simp [envSet, envDel]

/-- C7 counterexample: with `mode=https` the wrapper script is still
created and `GIT_SSH` is exported into a previously clean environment,
refuting the claim that in https mode no wrapper is created and the
environment is unchanged. -/
theorem https_wrapper_cex :
    p7.mode = "https"
    ∧ (mainModel p7 false fs0 env0 w0).wrapperCreated = true
    ∧ (mainModel p7 false fs0 env0 w0).envFinal "GIT_SSH" = some "/tmp/wrapper123"
    ∧ env0 "GIT_SSH" = none := by decide

/-- C7 amended: the transport configuration (wrapper creation and `GIT_SSH`
export) runs unconditionally on every run that resolves a git executable,
passes the commit/comment check and resolves the repository path —
regardless of the requested mode. -/
theorem wrapper_setup_unconditional (p : Params) (ah : Bool) (fs : FS) (e0 : EnvMap)
    (w : World) (gp rp : String)
    (hg : gitPathResolve p w = .ok gp)
    (hc : (p.commit && !optTruthy p.comment) = false)
    (hr : get_repo_path fs p.localPath = .ok rp) :
    (mainModel p ah fs e0 w).wrapperCreated = true
    ∧ (mainModel p ah fs e0 w).envFinal "GIT_SSH" = some w.wrapperPath := by
  refine ⟨?_, ?_⟩ <;> simp [mainModel, hg, hc, hr, set_git_ssh_reads_wrapper]

/-- C7 witness: the unconditional-setup theorem applied to the https-mode
configuration. -/
theorem wrapper_setup_unconditional_witness :
    (mainModel p7 false fs0 env0 w0).wrapperCreated = true
    ∧ (mainModel p7 false fs0 env0 w0).envFinal "GIT_SSH" = some w0.wrapperPath :=
  wrapper_setup_unconditional p7 false fs0 env0 w0 "git" "/repo/.git"
    (by decide) (by decide) (by decide)

/-- C8 (code bug): a plain run builds all five pipeline steps with
`cwd=local_path` on every git invocation and actually executes steps, yet
the C-locale `run_command_environ_update` is never installed (`accept_hostkey`
falsy); the last conjunct shows it is not installed even when
`accept_hostkey` is true but `ssh_opts` is set, so the locale forcing the
claim (and the source's own comment) promises for every request happens
only in the `accept_hostkey ∧ ssh_opts is None` corner. -/
theorem locale_not_forced_but_cwd_set :
    (mainModel p8 false fs0 env0 w0).localeForced = false
    ∧ (mainModel p8 false fs0 env0 w0).commands =
      [("git_add", StepKind.run "git -C /repo8/.git add ." (some "/repo8")),
       ("git_files_added",
        StepKind.run "git -C /repo8/.git diff-index --cached --name-status HEAD" (some "/repo8")),
       ("git_staged_files", StepKind.diffIndex),
       ("git_commit", StepKind.run "git -C /repo8/.git commit -m \"msg8\"" (some "/repo8")),
       ("git_push", StepKind.run "git -C /repo8/.git push  origin  master" (some "/repo8"))]
    ∧ (mainModel p8 false fs0 env0 w0).trace ≠ []
    ∧ (hostkeyUpdate true (some "-o Foo=bar")).2 = false
    ∧ (hostkeyUpdate true none).2 = true := by decide

/-- C10 counterexample: the commit message `a\"b` contains a double quote,
yet after the module's escaping the double-quote scanner terminates early
(characters remain outside the string) and the recovered content `a\` is
not the original message — the escaping does not handle backslashes. -/
theorem escape_backslash_quote_cex :
    dqSplit ((escapeComment "a\\\"b").data ++ ['"']) = some (['a', '\\'], ['b', '"'])
    ∧ ['a', '\\'] ≠ "a\\\"b".data := by decide

theorem dqSplit_cons_other (c : Char) (rest : List Char) (hq : c ≠ '"') (hb : c ≠ '\\') :
    dqSplit (c :: rest) = (dqSplit rest).map (fun p => (c :: p.1, p.2)) := by
  cases rest <;> simp [dqSplit, hq, hb]

theorem dq_roundtrip_chars :
    ∀ l : List Char, (∀ c ∈ l, c ≠ '\\') →
      dqSplit (escChars l ++ ['"']) = some (l, []) := by
  intro l
  induction l with
  | nil => intro _; decide
  | cons c cs ih =>
    intro h
    have hc : c ≠ '\\' := h c (by simp)
    have hcs : ∀ x ∈ cs, x ≠ '\\' := fun x hx => h x (by simp [hx])
    by_cases hq : c = '"'
    · subst hq
      simp only [escChars, if_pos rfl, List.cons_append]
      simp only [dqSplit]
      rw [if_neg (by decide), if_pos (by decide), if_pos (by decide)]
      try simp only [List.append_eq]
      rw [ih hcs]
      rfl
    · simp only [escChars, if_neg hq, List.cons_append]
      rw [dqSplit_cons_other c _ hq hc]
      try simp only [List.append_eq]
      rw [ih hcs]
      rfl

/-- C10 amended: for every commit message free of backslashes (including
every such message containing double quotes), the module's escaping makes
the double-quote scanner consume the entire escaped message — the only
unescaped quote is the closing one, so the quoted string does not terminate
early — and the recovered content is exactly the original message. -/
theorem escape_roundtrip (m : String) (h : ∀ c ∈ m.data, c ≠ '\\') :
    dqSplit ((escapeComment m).data ++ ['"']) = some (m.data, []) :=
  dq_roundtrip_chars m.data h

/-- C10 witness: the round-trip theorem applied to a message containing
two double quotes. -/
theorem escape_roundtrip_witness :
    dqSplit ((escapeComment "say \"hi\"").data ++ ['"']) = some ("say \"hi\"".data, []) :=
  escape_roundtrip "say \"hi\"" (by decide)
